import Mathlib

/-!
# Verification of the TypeScript Code Analyzer Pro analysis pipeline

A shallow embedding of the analysis core of the repository:

* `src/analyzer/PerformanceAnalyzer.ts` — loop nesting, oversized array
  literals, memory-churn calls, cyclomatic complexity, maintainability index;
* `src/analyzer/MemoryLeakDetector.ts` — four leak sweeps and the overall
  severity;
* `DependencyAnalyzer` — dependency graph construction, module resolution and
  depth-first cycle detection;
* `src/analyzer/CodeAnalyzer.ts` — tsconfig lookup, fatal error handling and
  the result summary.

Syntax trees are modelled through the narrow parser interface the analyzers
use (kind tag, start line, raw text, structured child nodes): a node's
children are its structured (token-free) child nodes, so the children of an
array literal are its elements and the first child of a call expression is
its callee expression.  The filesystem is modelled as a predicate on absolute
paths given as segment lists.  JavaScript `Set`/`Map` values are modelled as
lists used only through membership / first-match lookup, which coincides with
the insertion-order semantics of the originals.
-/

/-- Issue severity, as in the analyzers' union type. -/
inductive Severity where
  | low
  | medium
  | high
deriving DecidableEq

/-- Overall health classification from `CodeAnalyzer.generateSummary`. -/
inductive Health where
  | good
  | moderate
  | poor
deriving DecidableEq

/-- The `type` field of a `PerformanceIssue`. -/
inductive PerfType where
  | loop
  | memory
  | complexity
deriving DecidableEq

/-- The syntax-kind tags the analyzers test for (`ts-morph` `SyntaxKind`
values actually consulted by the source), plus `other` for every kind the
analyzers never match on. -/
inductive SyntaxKind where
  | IfStatement
  | ForStatement
  | ForInStatement
  | ForOfStatement
  | WhileStatement
  | DoStatement
  | CaseClause
  | CatchClause
  | ConditionalExpression
  | BinaryExpression
  | CallExpression
  | ArrayLiteralExpression
  | PropertyAccessExpression
  | ArrowFunction
  | FunctionExpression
  | FunctionDeclaration
  | MethodDeclaration
  | other
deriving DecidableEq

/-- Attributes of a syntax node read by the analyzers: kind tag, start line
(`getStartLineNumber`), raw text (`getText`), the optional declaration name
(`getName`, only meaningful on function/method declarations) and, for binary
expressions, the top-level operator token — the source never reads the
operator (it greps the raw text), but the claims talk about it, so the model
carries it. -/
structure NodeData where
  kind : SyntaxKind
  line : Nat
  text : String
  name : Option String := none
  op : Option String := none
deriving DecidableEq

/-- A syntax node: its data and its structured child nodes. -/
inductive SyntaxNode where
  | node (data : NodeData) (children : List SyntaxNode)

/-- A parsed source file: resolved path (`getFilePath`), full text
(`getFullText`), top-level syntax nodes and the module specifiers of the
file's imports (`getImportDeclarations[].getModuleSpecifierValue`). -/
structure SourceFile where
  filePath : String
  fullText : String
  children : List SyntaxNode
  imports : List String

def SyntaxNode.kind : SyntaxNode → SyntaxKind
  | .node d _ => d.kind

def SyntaxNode.line : SyntaxNode → Nat
  | .node d _ => d.line

def SyntaxNode.text : SyntaxNode → String
  | .node d _ => d.text

def SyntaxNode.nameOf : SyntaxNode → Option String
  | .node d _ => d.name

def SyntaxNode.getChildren : SyntaxNode → List SyntaxNode
  | .node _ cs => cs

mutual

/-- All descendants of a node (the node itself excluded), in the depth-first
pre-order that `forEachDescendant` uses. -/
def SyntaxNode.descendants : SyntaxNode → List SyntaxNode
  | .node _ cs => descendantsOfList cs

/-- The nodes of a forest and all their descendants, in pre-order. -/
def descendantsOfList : List SyntaxNode → List SyntaxNode
  | [] => []
  | c :: cs => c :: (SyntaxNode.descendants c ++ descendantsOfList cs)

end

/-- All nodes of a source file in the order `sourceFile.forEachDescendant`
visits them. -/
def fileDescendants (sf : SourceFile) : List SyntaxNode :=
  descendantsOfList sf.children

/-- `pat` occurs as a contiguous run inside the character list.  Models the
JavaScript `String.prototype.includes` / regex-containment checks. -/
def charsHasSub (pat : List Char) : List Char → Bool
  | [] => pat.isEmpty
  | c :: cs => pat.isPrefixOf (c :: cs) || charsHasSub pat cs

/-- `s.includes(pat)` on JavaScript strings. -/
def strHasSub (s pat : String) : Bool :=
  charsHasSub pat.data s.data

/-- `s.split('\n').length`: one more than the number of newline characters. -/
def lineCount (s : String) : Nat :=
  s.data.count '\n' + 1

/-- A performance issue as built by `PerformanceAnalyzer`. -/
structure PerformanceIssue where
  type : PerfType
  severity : Severity
  location : String
  description : String
  suggestion : String
  code : Option String := none
deriving DecidableEq

/-- The loop syntax kinds `analyzeLoops` matches (`ForStatement`,
`ForInStatement`, `ForOfStatement`). -/
def isAnalyzedLoopKind (k : SyntaxKind) : Bool :=
  k = SyntaxKind.ForStatement || k = SyntaxKind.ForInStatement ||
    k = SyntaxKind.ForOfStatement

mutual

/-- `analyzeLoops` walk: at each loop node, scan the ancestor chain; if some
ancestor is itself a loop, emit one `loop`/high issue at this node (the
`while (parent) { ... break }` in the source emits at most one issue per
node, exactly when any ancestor is a loop). -/
def loopWalk (fp : String) (ancestors : List SyntaxKind) : SyntaxNode → List PerformanceIssue
  | .node d cs =>
    (if isAnalyzedLoopKind d.kind && ancestors.any isAnalyzedLoopKind then
      [{ type := PerfType.loop
         severity := Severity.high
         location := fp ++ ":" ++ toString d.line
         description := "Nested loop detected - potential performance issue"
         suggestion := "Consider restructuring to avoid nested loops or use array methods"
         code := some d.text }]
    else []) ++ loopWalkList fp (d.kind :: ancestors) cs

def loopWalkList (fp : String) (ancestors : List SyntaxKind) : List SyntaxNode → List PerformanceIssue
  | [] => []
  | c :: cs => loopWalk fp ancestors c ++ loopWalkList fp ancestors cs

end

/-- `PerformanceAnalyzer.analyzeLoops`. -/
def analyzeLoops (sf : SourceFile) : List PerformanceIssue :=
  loopWalkList sf.filePath [] sf.children

/-- The issues `analyzeMemoryUsage` emits at one node: a `memory`/medium
issue when an array literal has more than 1000 children, and a `memory`/low
issue when a call expression's text contains `concat` or `splice`. -/
def memUsageNode (fp : String) (n : SyntaxNode) : List PerformanceIssue :=
  (if n.kind = SyntaxKind.ArrayLiteralExpression ∧ 1000 < n.getChildren.length then
    [{ type := PerfType.memory
       severity := Severity.medium
       location := fp ++ ":" ++ toString n.line
       description := "Large array literal detected"
       suggestion := "Consider loading large arrays dynamically or paginating"
       code := some (String.mk (n.text.data.take 100) ++ "...") }]
  else []) ++
  (if n.kind = SyntaxKind.CallExpression ∧
      (strHasSub n.text "concat" = true ∨ strHasSub n.text "splice" = true) then
    [{ type := PerfType.memory
       severity := Severity.low
       location := fp ++ ":" ++ toString n.line
       description := "Memory-intensive array operation detected"
       suggestion := "Consider using more efficient array operations"
       code := some n.text }]
  else [])

/-- `PerformanceAnalyzer.analyzeMemoryUsage`. -/
def analyzeMemoryUsage (sf : SourceFile) : List PerformanceIssue :=
  (fileDescendants sf).flatMap (memUsageNode sf.filePath)

/-- Whether a descendant increments cyclomatic complexity in the source's
`switch`: if/for/while statements, case and catch clauses, ternaries, and
binary expressions whose raw text matches the regex `&&|\|\|`. -/
def decisionIncrement (n : SyntaxNode) : Bool :=
  match n.kind with
  | SyntaxKind.IfStatement => true
  | SyntaxKind.ForStatement => true
  | SyntaxKind.WhileStatement => true
  | SyntaxKind.CaseClause => true
  | SyntaxKind.CatchClause => true
  | SyntaxKind.ConditionalExpression => true
  | SyntaxKind.BinaryExpression => strHasSub n.text "&&" || strHasSub n.text "||"
  | _ => false

/-- `analyzeFunctionNode`'s complexity count: starts at 1 and increments for
each decision descendant. -/
def nodeComplexity (n : SyntaxNode) : Nat :=
  n.descendants.foldl (fun c child => if decisionIncrement child then c + 1 else c) 1

/-- The issue `analyzeFunctionNode` pushes: one `complexity` issue when the
complexity exceeds 10, `high` when it exceeds 20 and `medium` otherwise. -/
def complexityIssuesFor (fp : String) (n : SyntaxNode) : List PerformanceIssue :=
  if 10 < nodeComplexity n then
    [{ type := PerfType.complexity
       severity := if 20 < nodeComplexity n then Severity.high else Severity.medium
       location := fp ++ ":" ++ toString n.line
       description := "High cyclomatic complexity (" ++ toString (nodeComplexity n) ++ ")"
       suggestion := "Consider breaking down this function into smaller functions"
       code := some (n.nameOf.getD "anonymous function") }]
  else []

/-- The node test `Node.isFunctionDeclaration(node) || Node.isMethodDeclaration(node)`. -/
def isMeasuredFunction (n : SyntaxNode) : Bool :=
  n.kind = SyntaxKind.FunctionDeclaration || n.kind = SyntaxKind.MethodDeclaration

/-- `PerformanceAnalyzer.analyzeFunctionComplexity`: issues and the summed
complexity of all function and method declarations of the file, visited in
pre-order. -/
def analyzeFunctionComplexity (sf : SourceFile) : List PerformanceIssue × Nat :=
  let fns := (fileDescendants sf).filter isMeasuredFunction
  (fns.flatMap (complexityIssuesFor sf.filePath), (fns.map nodeComplexity).foldl (· + ·) 0)

/-- `PerformanceAnalyzer.generateRecommendations`: canned strings selected by
which issue types are present. -/
def generateRecommendations (issues : List PerformanceIssue) : List String :=
  (if issues.any (fun i => decide (i.type = PerfType.loop)) then
    ["Consider using array methods (map, filter, reduce) instead of loops where possible",
     "Review nested loops for potential optimization opportunities"]
  else []) ++
  (if issues.any (fun i => decide (i.type = PerfType.memory)) then
    ["Implement pagination for large data sets",
     "Use memory-efficient data structures for large collections"]
  else []) ++
  (if issues.any (fun i => decide (i.type = PerfType.complexity)) then
    ["Break down complex functions into smaller, more manageable pieces",
     "Consider implementing a service layer to better separate concerns"]
  else [])

/-- Result of `PerformanceAnalyzer.analyze`.  The `maintainabilityIndex`
metric is the real-valued `calculateMaintainabilityIndex` below applied to
`linesOfCode` and `cyclomaticComplexity`; it is kept out of this record so
that the record stays executable (the index involves a transcendental
logarithm). -/
structure PerformanceAnalysisResult where
  issues : List PerformanceIssue
  cyclomaticComplexity : Nat
  linesOfCode : Nat
  recommendations : List String
deriving DecidableEq

/-- `PerformanceAnalyzer.analyze` over the project's source files: per file,
loop issues, memory issues and complexity issues in that order; complexity
and line counts summed across files. -/
def performanceAnalyze (files : List SourceFile) : PerformanceAnalysisResult :=
  let issues := files.flatMap fun sf =>
    analyzeLoops sf ++ analyzeMemoryUsage sf ++ (analyzeFunctionComplexity sf).1
  { issues := issues
    cyclomaticComplexity := (files.map fun sf => (analyzeFunctionComplexity sf).2).foldl (· + ·) 0
    linesOfCode := (files.map fun sf => lineCount sf.fullText).foldl (· + ·) 0
    recommendations := generateRecommendations issues }

/-- `PerformanceAnalyzer.calculateMaintainabilityIndex`:
`Math.round(Math.max(0, (171 - 5.2 * Math.log(loc) - 0.23 * cc) * 100 / 171))`,
with JavaScript's real arithmetic modelled over `ℝ`. -/
noncomputable def calculateMaintainabilityIndex (linesOfCode cyclomaticComplexity : ℕ) : ℤ :=
  round (max 0 ((171 - Real.log linesOfCode * 5.2 - (cyclomaticComplexity : ℝ) * 0.23) * 100 / 171))

/-- A memory issue as built by `MemoryLeakDetector`. -/
structure MemoryIssue where
  type : String
  severity : Severity
  location : String
  description : String
  suggestion : String
deriving DecidableEq

/-- `call.getExpression().getText()`: the text of a call's callee, the first
structured child of a call expression. -/
def getExpressionText (n : SyntaxNode) : String :=
  match n.getChildren with
  | c :: _ => c.text
  | [] => ""

/-- Per-node check of `detectEventListenerLeaks`. -/
def eventListenerNode (fp : String) (n : SyntaxNode) : List MemoryIssue :=
  if n.kind = SyntaxKind.CallExpression ∧ strHasSub (getExpressionText n) "addEventListener" = true then
    [{ type := "EventListenerLeak"
       severity := Severity.medium
       location := fp ++ ":" ++ toString n.line
       description := "Potential event listener leak detected"
       suggestion := "Ensure event listener is removed when component is destroyed" }]
  else []

/-- Per-node check of `detectClosureLeaks`. -/
def closureNode (fp : String) (n : SyntaxNode) : List MemoryIssue :=
  if (n.kind = SyntaxKind.ArrowFunction ∨ n.kind = SyntaxKind.FunctionDeclaration) ∧
      (strHasSub n.text "this." = true ∨ strHasSub n.text "state" = true ∨
        strHasSub n.text "props" = true) then
    [{ type := "ClosureLeak"
       severity := Severity.low
       location := fp ++ ":" ++ toString n.line
       description := "Potential closure leak detected"
       suggestion := "Be careful with closures that capture component state or props" }]
  else []

/-- Per-node check of `detectTimerLeaks`. -/
def timerNode (fp : String) (n : SyntaxNode) : List MemoryIssue :=
  if n.kind = SyntaxKind.CallExpression ∧
      (strHasSub (getExpressionText n) "setInterval" = true ∨
        strHasSub (getExpressionText n) "setTimeout" = true) then
    [{ type := "TimerLeak"
       severity := Severity.medium
       location := fp ++ ":" ++ toString n.line
       description := "Potential timer leak detected"
       suggestion := "Ensure timer is cleared when component unmounts" }]
  else []

/-- Per-node check of `detectObjectAccumulation`. -/
def objectAccumulationNode (fp : String) (n : SyntaxNode) : List MemoryIssue :=
  if n.kind = SyntaxKind.PropertyAccessExpression ∧
      (strHasSub n.text ".push" = true ∨ strHasSub n.text ".unshift" = true) then
    [{ type := "ObjectAccumulation"
       severity := Severity.low
       location := fp ++ ":" ++ toString n.line
       description := "Potential object accumulation detected"
       suggestion := "Consider implementing a cleanup mechanism for accumulated objects" }]
  else []

/-- `MemoryLeakDetector.detectEventListenerLeaks`. -/
def detectEventListenerLeaks (sf : SourceFile) : List MemoryIssue :=
  (fileDescendants sf).flatMap (eventListenerNode sf.filePath)

/-- `MemoryLeakDetector.detectClosureLeaks`. -/
def detectClosureLeaks (sf : SourceFile) : List MemoryIssue :=
  (fileDescendants sf).flatMap (closureNode sf.filePath)

/-- `MemoryLeakDetector.detectTimerLeaks`. -/
def detectTimerLeaks (sf : SourceFile) : List MemoryIssue :=
  (fileDescendants sf).flatMap (timerNode sf.filePath)

/-- `MemoryLeakDetector.detectObjectAccumulation`. -/
def detectObjectAccumulation (sf : SourceFile) : List MemoryIssue :=
  (fileDescendants sf).flatMap (objectAccumulationNode sf.filePath)

/-- `MemoryLeakDetector.calculateOverallSeverity`: `high` when a high issue
exists, else `medium` when more than two medium issues exist, else `low`. -/
def calculateOverallSeverity (issues : List MemoryIssue) : Severity :=
  let highCount := (issues.filter fun i => decide (i.severity = Severity.high)).length
  let mediumCount := (issues.filter fun i => decide (i.severity = Severity.medium)).length
  if 0 < highCount then Severity.high
  else if 2 < mediumCount then Severity.medium
  else Severity.low

/-- Append `s` unless already present: one step of the insertion-ordered
`Set<string>` used by `generateSuggestions`. -/
def insertUnique (l : List String) (s : String) : List String :=
  if s ∈ l then l else l ++ [s]

/-- `MemoryLeakDetector.generateSuggestions`: the de-duplicated per-issue
suggestions followed by three fixed general suggestions. -/
def generateSuggestions (issues : List MemoryIssue) : List String :=
  let base := issues.foldl (fun acc i => insertUnique acc i.suggestion) []
  insertUnique (insertUnique (insertUnique base
    "Implement proper cleanup in component lifecycle methods")
    "Use weak references for cache implementations")
    "Consider using a memory profiler for detailed analysis"

/-- Result of `MemoryLeakDetector.detect`. -/
structure MemoryAnalysisResult where
  potentialLeaks : List MemoryIssue
  severity : Severity
  suggestions : List String
deriving DecidableEq

/-- `MemoryLeakDetector.detect`: the four sweeps per file, concatenated in
source order. -/
def memoryLeakDetect (files : List SourceFile) : MemoryAnalysisResult :=
  let issues := files.flatMap fun sf =>
    detectEventListenerLeaks sf ++ detectClosureLeaks sf ++
      detectTimerLeaks sf ++ detectObjectAccumulation sf
  { potentialLeaks := issues
    severity := calculateOverallSeverity issues
    suggestions := generateSuggestions issues }

/-- Character-level splitting on `/` (collecting the current segment in
reverse), so that path computations evaluate inside the kernel. -/
def splitPathAux (cur : List Char) : List Char → List (List Char)
  | [] => [cur.reverse]
  | c :: cs => if c = '/' then cur.reverse :: splitPathAux [] cs else splitPathAux (c :: cur) cs

/-- Segments of a POSIX path or module specifier: split on `/`, empty
segments dropped. -/
def splitPath (p : String) : List String :=
  ((splitPathAux [] p.data).filter fun s => !s.isEmpty).map String.mk

/-- Interleave `/` between segments. -/
def joinSegs : List String → String
  | [] => ""
  | [s] => s
  | s :: rest => s ++ "/" ++ joinSegs rest

/-- Rebuild an absolute POSIX path from segments. -/
def joinPath (segs : List String) : String :=
  "/" ++ joinSegs segs

/-- `s.startsWith(pat)` on JavaScript strings. -/
def strStartsWith (s pat : String) : Bool :=
  pat.data.isPrefixOf s.data

/-- `s.includes(c)` for a single character. -/
def strHasChar (s : String) (c : Char) : Bool :=
  s.data.contains c

/-- Resolve `.` and `..` segments left to right, as `path.resolve` does once
the base is absolute. -/
def normalizeSegs (acc : List String) : List String → List String
  | [] => acc
  | s :: rest =>
    if s = "." then normalizeSegs acc rest
    else if s = ".." then normalizeSegs acc.dropLast rest
    else normalizeSegs (acc ++ [s]) rest

/-- `path.dirname` on an absolute POSIX path. -/
def dirname (p : String) : String :=
  joinPath (splitPath p).dropLast

/-- `path.resolve(dir, spec)` for an absolute `dir`. -/
def pathResolve (dir spec : String) : String :=
  joinPath (normalizeSegs [] (splitPath dir ++ splitPath spec))

/-- `DependencyAnalyzer.resolveModulePath`: relative specifiers resolve
against the importing file's directory; scoped packages and bare names
without `/` are dropped; any other specifier is kept verbatim. -/
def resolveModulePath (moduleSpecifier currentPath : String) : Option String :=
  if strStartsWith moduleSpecifier "." then
    some (pathResolve (dirname currentPath) moduleSpecifier)
  else if strStartsWith moduleSpecifier "@" || !(strHasChar moduleSpecifier '/') then
    none
  else
    some moduleSpecifier

/-- The dependency graph: file path to dependency list, in insertion order
(the `weight` stored by the source is the dependency count and is
reconstructed where needed). -/
abbrev DependencyGraph := List (String × List String)

/-- `Map.set` with JavaScript semantics: replace in place when the key
exists, append otherwise. -/
def mapSet (g : DependencyGraph) (key : String) (value : List String) : DependencyGraph :=
  if g.any (fun e => e.1 == key) then
    g.map fun e => if e.1 == key then (key, value) else e
  else
    g ++ [(key, value)]

/-- `DependencyAnalyzer.buildDependencyGraph`. -/
def buildDependencyGraph (files : List SourceFile) : DependencyGraph :=
  files.foldl
    (fun g sf =>
      mapSet g sf.filePath
        ((sf.imports.map fun spec => resolveModulePath spec sf.filePath).filterMap id))
    []

/-- `Map.get` on the dependency graph, with `?.dependencies || []`
defaulting. -/
def getDeps (g : DependencyGraph) (node : String) : List String :=
  match g.find? (fun e => e.1 == node) with
  | some e => e.2
  | none => []

/-- The mutable state of `detectCircularDependencies`: the globally visited
set, the recursion stack and the collected cycles.  The two sets are lists
consulted only through membership. -/
structure DfsState where
  visited : List String
  stack : List String
  cycles : List (List String)
deriving DecidableEq

/-- The `for (const dep of dependencies)` loop of `dfs`, parameterized by
the recursive call so the whole search is structurally recursive on fuel:
recurse into unvisited dependencies; record `path.slice(path.indexOf(dep))`
as a cycle when a dependency is on the recursion stack (`List.findIdx`
equals `indexOf` here because a stack member always occurs in `path`). -/
def dfsDepsWith (recur : String → List String → DfsState → Option DfsState) :
    List String → String → List String → DfsState → Option DfsState
  | [], _, _, st => some st
  | dep :: rest, node, path, st =>
    if dep ∈ st.visited then
      if dep ∈ st.stack then
        dfsDepsWith recur rest node path
          ⟨st.visited, st.stack, st.cycles ++ [path.drop (path.findIdx (· == dep))]⟩
      else
        dfsDepsWith recur rest node path st
    else
      match recur dep (path ++ [dep]) st with
      | none => none
      | some st2 => dfsDepsWith recur rest node path st2

/-- The inner `dfs` of `detectCircularDependencies`, with explicit fuel in
place of JavaScript's unbounded recursion (`detectCircularDependencies_total`
below shows the fuel chosen by `detectCircularDependencies` is never
exhausted): mark the node visited and on the stack, process its
dependencies, then remove it from the stack. -/
def dfs (g : DependencyGraph) : Nat → String → List String → DfsState → Option DfsState
  | 0, _, _, _ => none
  | Nat.succ n, node, path, st =>
    match dfsDepsWith (dfs g n) (getDeps g node) node path
        ⟨node :: st.visited, node :: st.stack, st.cycles⟩ with
    | none => none
    | some st2 => some ⟨st2.visited, st2.stack.erase node, st2.cycles⟩

/-- Every node name the search can ever touch: graph keys and all
dependency targets. -/
def candidates (g : DependencyGraph) : List String :=
  g.flatMap fun e => e.1 :: e.2

/-- The outer loop of `detectCircularDependencies`: start a fresh search from
every not-yet-visited key in insertion order. -/
def runVisits (g : DependencyGraph) (fuel : Nat) : List String → DfsState → Option DfsState
  | [], st => some st
  | k :: ks, st =>
    if k ∈ st.visited then runVisits g fuel ks st
    else
      match dfs g fuel k [k] st with
      | none => none
      | some st2 => runVisits g fuel ks st2

/-- `DependencyAnalyzer.detectCircularDependencies`, run with enough fuel for
every reachable node. -/
def detectCircularDependencies (g : DependencyGraph) : Option (List (List String)) :=
  match runVisits g ((candidates g).length + 1) (g.map (·.1)) ⟨[], [], []⟩ with
  | none => none
  | some st => some st.cycles

/-- Result of `DependencyAnalyzer.analyze`.  `graph` is the `exportGraph`
output (id, dependencies, weight); the average is exact rational division. -/
structure DependencyAnalysisResult where
  graph : List (String × List String × Nat)
  circularDependencies : List (List String)
  totalFiles : Nat
  averageDependencies : ℚ
  maxDependencies : Nat
deriving DecidableEq

/-- `DependencyAnalyzer.analyze`: build the graph, detect cycles, compute
metrics (`calculateMetrics` and `exportGraph` inlined).  The cycle search is
total by `detectCircularDependencies_total`, so the `[]` default is never
used. -/
def dependencyAnalyze (files : List SourceFile) : DependencyAnalysisResult :=
  let g := buildDependencyGraph files
  { graph := g.map fun e => (e.1, e.2, e.2.length)
    circularDependencies := (detectCircularDependencies g).getD []
    totalFiles := g.length
    averageDependencies :=
      if 0 < g.length then
        ((g.map fun e => e.2.length).foldl (· + ·) 0 : ℚ) / (g.length : ℚ)
      else 0
    maxDependencies := (g.map fun e => e.2.length).foldl max 0 }

/-- The two fatal errors of `analyzeProject` (section 7 taxonomy). -/
inductive AnalysisError where
  | projectNotFound
  | configNotFound
deriving DecidableEq

/-- The summary record (the run timestamp, an impure clock read, is not
modelled; no claim mentions it). -/
structure Summary where
  totalIssues : Nat
  criticalIssues : Nat
  overallHealth : Health
deriving DecidableEq

/-- `CodeAnalyzer.generateSummary`: `totalIssues` and `criticalIssues` from
the performance and leak results, the health policy, with the dependency
result received but never read — exactly as in the source. -/
def generateSummary (performance : PerformanceAnalysisResult)
    (memoryLeaks : MemoryAnalysisResult) (dependencies : DependencyAnalysisResult) : Summary :=
  let totalIssues := performance.issues.length + memoryLeaks.potentialLeaks.length
  let criticalIssues :=
    (performance.issues.filter fun i => decide (i.severity = Severity.high)).length +
      (memoryLeaks.potentialLeaks.filter fun i => decide (i.severity = Severity.high)).length
  { totalIssues := totalIssues
    criticalIssues := criticalIssues
    overallHealth :=
      if 0 < criticalIssues then Health.poor
      else if 10 < totalIssues then Health.moderate
      else Health.good }

/-- The record returned by `CodeAnalyzer.analyzeProject`. -/
structure AnalysisResult where
  performance : PerformanceAnalysisResult
  memoryLeaks : MemoryAnalysisResult
  dependencies : DependencyAnalysisResult
  summary : Summary
deriving DecidableEq

/-- An absolute filesystem path as a segment list; `[]` is the filesystem
root, so `path.parse(p).root = p` becomes `p = []` and `path.dirname`
becomes `dropLast`. -/
abbrev FsPath := List String

/-- The upward walk of `findTsConfig`, counted down by the number of path
segments so the recursion is structural: look for `tsconfig.json` in the
current directory, then retry in the parent, stopping (without a further
check) once the filesystem root is the current path. -/
def findTsConfigAux (fsExists : FsPath → Bool) : Nat → FsPath → Option FsPath
  | 0, _ => none
  | Nat.succ n, p =>
    if p = [] then none
    else if fsExists (p ++ ["tsconfig.json"]) then some (p ++ ["tsconfig.json"])
    else findTsConfigAux fsExists n p.dropLast

/-- `CodeAnalyzer.findTsConfig`: the walk drops one segment per iteration,
so `p.length` iterations always reach the root. `fsExists` models
`fs.existsSync`. -/
def findTsConfig (fsExists : FsPath → Bool) (p : FsPath) : Option FsPath :=
  findTsConfigAux fsExists p.length p

/-- The three detectors and the summary, run over the loaded source files
(the `ok` continuation of `analyzeProject`). -/
def runDetectors (files : List SourceFile) : AnalysisResult :=
  let performanceResults := performanceAnalyze files
  let memoryResults := memoryLeakDetect files
  let dependencyResults := dependencyAnalyze files
  { performance := performanceResults
    memoryLeaks := memoryResults
    dependencies := dependencyResults
    summary := generateSummary performanceResults memoryResults dependencyResults }

/-- `CodeAnalyzer.analyzeProject`: fail with `projectNotFound` when the
project path does not exist, then with `configNotFound` when `findTsConfig`
finds nothing, and only otherwise run the detectors over the project's
source files (`files` models what the tsconfig-driven `Project` loads). -/
def analyzeProject (fsExists : FsPath → Bool) (files : List SourceFile)
    (projectPath : FsPath) : Except AnalysisError AnalysisResult :=
  if !fsExists projectPath then Except.error AnalysisError.projectNotFound
  else
    match findTsConfig fsExists projectPath with
    | none => Except.error AnalysisError.configNotFound
    | some _ => Except.ok (runDetectors files)

def SyntaxNode.operatorOf : SyntaxNode → Option String
  | .node d _ => d.op

/-- Decision points exactly as claim C4 words them: conditional branches,
loops (of every kind), switch-case clauses, catch clauses, ternary
expressions, and binary logical (`&&`/`||`) expressions — a binary
expression counts exactly when its top-level operator is logical.  Stated
from the claim's words, for comparison against `decisionIncrement`, which is
read off the source. -/
def claimDecisionPoint (n : SyntaxNode) : Bool :=
  match n.kind with
  | SyntaxKind.IfStatement => true
  | SyntaxKind.ForStatement => true
  | SyntaxKind.ForInStatement => true
  | SyntaxKind.ForOfStatement => true
  | SyntaxKind.WhileStatement => true
  | SyntaxKind.DoStatement => true
  | SyntaxKind.CaseClause => true
  | SyntaxKind.CatchClause => true
  | SyntaxKind.ConditionalExpression => true
  | SyntaxKind.BinaryExpression =>
      n.operatorOf == some "&&" || n.operatorOf == some "||"
  | _ => false

/-- Cyclomatic complexity as claim C4 states it: 1 plus the number of
decision-point descendants. -/
def claimComplexity (n : SyntaxNode) : Nat :=
  1 + n.descendants.countP claimDecisionPoint

/-- Example file `a.ts`, importing `./b` (claim C2's project). -/
def exFileA : SourceFile :=
  { filePath := "/proj/a.ts", fullText := "import ./b", children := [], imports := ["./b"] }

/-- Example file `b.ts`, importing `./a` (claim C2's project). -/
def exFileB : SourceFile :=
  { filePath := "/proj/b.ts", fullText := "import ./a", children := [], imports := ["./a"] }

/-- A function declaration whose only descendant is a for-of loop — a loop
decision point in claim C4's sense that the source's `switch` never
matches. -/
def exForOfFn : SyntaxNode :=
  SyntaxNode.node
    { kind := SyntaxKind.FunctionDeclaration, line := 1,
      text := "function walk(xs) = for (const x of xs) total += x", name := some "walk" }
    [SyntaxNode.node
      { kind := SyntaxKind.ForOfStatement, line := 1, text := "for (const x of xs) total += x" } []]

/-- A function declaration whose only descendant is an equality comparison —
a binary expression that is not logical — whose text contains `&&` inside a
string literal, so the source's regex check counts it. -/
def exStrBinFn : SyntaxNode :=
  SyntaxNode.node
    { kind := SyntaxKind.FunctionDeclaration, line := 5,
      text := "function check(s) = s == \"x && y\"", name := some "check" }
    [SyntaxNode.node
      { kind := SyntaxKind.BinaryExpression, line := 5, text := "s == \"x && y\"",
        op := some "==" } []]

/-- A bare if statement on the given line. -/
def exIfNode (i : Nat) : SyntaxNode :=
  SyntaxNode.node { kind := SyntaxKind.IfStatement, line := i, text := "if (x > 0) y += 1" } []

/-- A method declaration with 16 decision points (claim C4's example). -/
def ex16Fn : SyntaxNode :=
  SyntaxNode.node
    { kind := SyntaxKind.MethodDeclaration, line := 1, text := "route(x) ...", name := some "route" }
    ((List.range 16).map fun i => exIfNode (i + 2))

/-- A file whose functions are all arrow functions or function expressions
(one arrow function with 12 decision points, one function expression with
one), for claim C9. -/
def exArrowFile : SourceFile :=
  { filePath := "/proj/ui.ts", fullText := "", imports := []
    children :=
      [SyntaxNode.node { kind := SyntaxKind.ArrowFunction, line := 1, text := "(x) => ..." }
        ((List.range 12).map fun i => exIfNode (i + 2)),
       SyntaxNode.node { kind := SyntaxKind.FunctionExpression, line := 20, text := "function (y) ..." }
        [exIfNode 21]] }

/-- Data of an array literal (claim C3's example). -/
def exArrayData : NodeData :=
  { kind := SyntaxKind.ArrayLiteralExpression, line := 3, text := "[0, 1, 2, 3, 4, ...]" }

/-- 1001 numeric elements for the array literal example. -/
def exArrayElems : List SyntaxNode :=
  (List.range 1001).map fun i =>
    SyntaxNode.node { kind := SyntaxKind.other, line := 3, text := toString i } []

/-- A file containing one `setInterval` call, for claim C8's witness. -/
def exTimerFile : SourceFile :=
  { filePath := "/proj/t.ts", fullText := "", imports := []
    children :=
      [SyntaxNode.node { kind := SyntaxKind.CallExpression, line := 4, text := "setInterval(cb, 100)" }
        [SyntaxNode.node { kind := SyntaxKind.other, line := 4, text := "setInterval" } []]] }

/-- A filesystem with project directory `/home/app` holding a
`tsconfig.json`. -/
def exFs (p : FsPath) : Bool :=
  p == ["home", "app"] || p == ["home", "app", "tsconfig.json"]

/-- A filesystem with project directory `/home/app` and no `tsconfig.json`
anywhere. -/
def exFsNoConfig (p : FsPath) : Bool :=
  p == ["home", "app"]

/-- A low-severity performance issue used to build concrete summaries. -/
def exLowPerfIssue : PerformanceIssue :=
  { type := PerfType.memory, severity := Severity.low, location := "/proj/a.ts:1",
    description := "d", suggestion := "s" }

/-- A performance result with eleven low-severity issues (pushes
`totalIssues` past 10 with no critical issue). -/
def exElevenIssues : PerformanceAnalysisResult :=
  { issues := List.replicate 11 exLowPerfIssue, cyclomaticComplexity := 0,
    linesOfCode := 0, recommendations := [] }

/-- An empty leak result. -/
def exNoLeaks : MemoryAnalysisResult :=
  { potentialLeaks := [], severity := Severity.low, suggestions := [] }

/-- An empty dependency result. -/
def exNoDeps : DependencyAnalysisResult :=
  { graph := [], circularDependencies := [], totalFiles := 0,
    averageDependencies := 0, maxDependencies := 0 }

/-- Like `exFileA` but importing `./b.ts` with an explicit extension, so the
resolved edge coincides with `exFileB`'s file path. -/
def exFileATs : SourceFile :=
  { filePath := "/proj/a.ts", fullText := "import ./b.ts", children := [], imports := ["./b.ts"] }

/-- Like `exFileB` but importing `./a.ts` with an explicit extension. -/
def exFileBTs : SourceFile :=
  { filePath := "/proj/b.ts", fullText := "import ./a.ts", children := [], imports := ["./a.ts"] }

/-- A mixed file: an arrow function with 12 decision points next to a method
declaration with 16 — only the method may be measured. -/
def exMixedFile : SourceFile :=
  { filePath := "/proj/mixed.ts", fullText := "", imports := []
    children :=
      [SyntaxNode.node { kind := SyntaxKind.ArrowFunction, line := 1, text := "(x) => ..." }
        ((List.range 12).map fun i => exIfNode (i + 2)),
       SyntaxNode.node
        { kind := SyntaxKind.MethodDeclaration, line := 20, text := "route(x) ...",
          name := some "route" }
        ((List.range 16).map fun i => exIfNode (i + 21))] }

/-- How many candidate nodes a visited set has not yet absorbed: the
termination measure of the cycle search. -/
def unvisitedCount (g : DependencyGraph) (visited : List String) : Nat :=
  ((candidates g).toFinset \ visited.toFinset).card

theorem foldl_count_eq {α : Type} (p : α → Bool) (l : List α) (c : Nat) :
    l.foldl (fun acc x => if p x then acc + 1 else acc) c = c + l.countP p := by
  induction l generalizing c with
  | nil => simp
  | cons a l ih =>
    by_cases h : p a <;> simp [List.countP_cons, ih, h] <;> omega

theorem unvisitedCount_anti (g : DependencyGraph) {v w : List String} (h : v ⊆ w) :
    unvisitedCount g w ≤ unvisitedCount g v :=
  Finset.card_le_card
    (Finset.sdiff_subset_sdiff (Finset.Subset.refl _)
      (fun a ha => List.mem_toFinset.mpr (h (List.mem_toFinset.mp ha))))

theorem unvisitedCount_cons (g : DependencyGraph) {node : String} {v : List String}
    (hc : node ∈ candidates g) (hv : node ∉ v) :
    unvisitedCount g (node :: v) + 1 = unvisitedCount g v := by
  have hm : node ∈ (candidates g).toFinset \ v.toFinset :=
    Finset.mem_sdiff.mpr ⟨List.mem_toFinset.mpr hc, fun hx => hv (List.mem_toFinset.mp hx)⟩
  have hpos : 0 < ((candidates g).toFinset \ v.toFinset).card :=
    Finset.card_pos.mpr ⟨node, hm⟩
  unfold unvisitedCount
  rw [List.toFinset_cons, Finset.sdiff_insert, Finset.card_erase_of_mem hm]
  omega

theorem unvisitedCount_le_length (g : DependencyGraph) (v : List String) :
    unvisitedCount g v ≤ (candidates g).length :=
  le_trans (Finset.card_le_card Finset.sdiff_subset) (List.toFinset_card_le _)

theorem getDeps_mem_candidates (g : DependencyGraph) (node : String) :
    ∀ d ∈ getDeps g node, d ∈ candidates g := by
  intro d hd
  unfold getDeps at hd
  cases hfind : g.find? (fun e => e.1 == node) with
  | none => rw [hfind] at hd; simp at hd
  | some e =>
    rw [hfind] at hd
    exact List.mem_flatMap.mpr ⟨e, List.mem_of_find?_eq_some hfind, by simp [hd]⟩

theorem keys_mem_candidates (g : DependencyGraph) :
    ∀ k ∈ g.map (fun e => e.1), k ∈ candidates g := by
  intro k hk
  obtain ⟨e, he, rfl⟩ := List.mem_map.mp hk
  exact List.mem_flatMap.mpr ⟨e, he, by simp⟩

theorem dfsDepsWith_visited_sub (recur : String → List String → DfsState → Option DfsState)
    (hrec : ∀ node path st st', recur node path st = some st' → st.visited ⊆ st'.visited) :
    ∀ deps node path st st', dfsDepsWith recur deps node path st = some st' →
      st.visited ⊆ st'.visited := by
  intro deps
  induction deps with
  | nil =>
    intro node path st st' h
    simp only [dfsDepsWith] at h
    cases h
    exact List.Subset.refl _
  | cons dep rest ih =>
    intro node path st st' h
    simp only [dfsDepsWith] at h
    split at h
    · split at h
      · exact ih node path
          ⟨st.visited, st.stack, st.cycles ++ [path.drop (path.findIdx (fun x => x == dep))]⟩
          st' h
      · exact ih node path st st' h
    · split at h
      · exact absurd h (by simp)
      · rename_i st2 heq
        exact List.Subset.trans (hrec _ _ _ _ heq) (ih node path st2 st' h)

theorem dfs_visited_sub (g : DependencyGraph) :
    ∀ fuel node path st st', dfs g fuel node path st = some st' →
      st.visited ⊆ st'.visited := by
  intro fuel
  induction fuel with
  | zero => intro node path st st' h; simp [dfs] at h
  | succ n ih =>
    intro node path st st' h
    simp only [dfs] at h
    split at h
    · exact absurd h (by simp)
    · rename_i st2 heq
      have h1 : (node :: st.visited) ⊆ st2.visited :=
        dfsDepsWith_visited_sub (dfs g n) ih _ node path _ st2 heq
      injection h with h2
      subst h2
      exact fun a ha => h1 (List.mem_cons_of_mem _ ha)

theorem dfs_total_all (g : DependencyGraph) :
    ∀ fuel,
      (∀ node path st, node ∈ candidates g → node ∉ st.visited →
        unvisitedCount g st.visited ≤ fuel → (dfs g fuel node path st).isSome = true) ∧
      (∀ deps node path st, (∀ d ∈ deps, d ∈ candidates g) →
        unvisitedCount g st.visited ≤ fuel →
        (dfsDepsWith (dfs g fuel) deps node path st).isSome = true) := by
  intro fuel
  induction fuel with
  | zero =>
    constructor
    · intro node path st hc hv hcnt
      have := unvisitedCount_cons g hc hv
      omega
    · intro deps
      induction deps with
      | nil => intro node path st _ _; simp [dfsDepsWith]
      | cons dep rest ihd =>
        intro node path st hmem hcnt
        simp only [dfsDepsWith]
        split
        · split
          · exact ihd node path _ (fun d hd => hmem d (List.mem_cons_of_mem _ hd)) hcnt
          · exact ihd node path st (fun d hd => hmem d (List.mem_cons_of_mem _ hd)) hcnt
        · rename_i hv
          have := unvisitedCount_cons g (hmem dep (by simp)) hv
          omega
  | succ n ihn =>
    have hdfs : ∀ node path st, node ∈ candidates g → node ∉ st.visited →
        unvisitedCount g st.visited ≤ n + 1 → (dfs g (n + 1) node path st).isSome = true := by
      intro node path st hc hv hcnt
      simp only [dfs]
      have hstep := unvisitedCount_cons g hc hv
      have h2 := ihn.2 (getDeps g node) node path
        ⟨node :: st.visited, node :: st.stack, st.cycles⟩
        (getDeps_mem_candidates g node) (by simpa using by omega)
      obtain ⟨st2, heq⟩ := Option.isSome_iff_exists.mp h2
      rw [heq]
      simp
    constructor
    · exact hdfs
    · intro deps
      induction deps with
      | nil => intro node path st _ _; simp [dfsDepsWith]
      | cons dep rest ihd =>
        intro node path st hmem hcnt
        simp only [dfsDepsWith]
        split
        · split
          · exact ihd node path _ (fun d hd => hmem d (List.mem_cons_of_mem _ hd)) hcnt
          · exact ihd node path st (fun d hd => hmem d (List.mem_cons_of_mem _ hd)) hcnt
        · rename_i hv
          have h1 := hdfs dep (path ++ [dep]) st (hmem dep (by simp)) hv hcnt
          obtain ⟨st2, heq⟩ := Option.isSome_iff_exists.mp h1
          rw [heq]
          exact ihd node path st2 (fun d hd => hmem d (List.mem_cons_of_mem _ hd))
            (le_trans (unvisitedCount_anti g (dfs_visited_sub g _ _ _ _ _ heq)) hcnt)

theorem runVisits_total (g : DependencyGraph) :
    ∀ ks st, (∀ k ∈ ks, k ∈ candidates g) →
      (runVisits g ((candidates g).length + 1) ks st).isSome = true := by
  intro ks
  induction ks with
  | nil => intro st _; simp [runVisits]
  | cons k ks ih =>
    intro st hk
    simp only [runVisits]
    split
    · exact ih st (fun x hx => hk x (List.mem_cons_of_mem _ hx))
    · have h1 := (dfs_total_all g ((candidates g).length + 1)).1 k [k] st
        (hk k (by simp)) (by assumption)
        (le_trans (unvisitedCount_le_length g st.visited) (Nat.le_succ _))
      obtain ⟨st2, heq⟩ := Option.isSome_iff_exists.mp h1
      rw [heq]
      exact ih st2 (fun x hx => hk x (List.mem_cons_of_mem _ hx))

theorem eventListenerNode_severity (fp : String) (n : SyntaxNode) :
    ∀ i ∈ eventListenerNode fp n, i.severity = Severity.medium := by
  intro i h
  unfold eventListenerNode at h
  split at h <;> simp_all

theorem closureNode_severity (fp : String) (n : SyntaxNode) :
    ∀ i ∈ closureNode fp n, i.severity = Severity.low := by
  intro i h
  unfold closureNode at h
  split at h <;> simp_all

theorem timerNode_severity (fp : String) (n : SyntaxNode) :
    ∀ i ∈ timerNode fp n, i.severity = Severity.medium := by
  intro i h
  unfold timerNode at h
  split at h <;> simp_all

theorem objectAccumulationNode_severity (fp : String) (n : SyntaxNode) :
    ∀ i ∈ objectAccumulationNode fp n, i.severity = Severity.low := by
  intro i h
  unfold objectAccumulationNode at h
  split at h <;> simp_all

theorem leak_issue_not_high (files : List SourceFile) :
    ∀ i ∈ (memoryLeakDetect files).potentialLeaks, i.severity ≠ Severity.high := by
  intro i hi
  simp only [memoryLeakDetect] at hi
  rw [List.mem_flatMap] at hi
  obtain ⟨sf, _, hi⟩ := hi
  simp only [detectEventListenerLeaks, detectClosureLeaks, detectTimerLeaks,
    detectObjectAccumulation, List.mem_append, List.mem_flatMap] at hi
  rcases hi with ((⟨n, _, hn⟩ | ⟨n, _, hn⟩) | ⟨n, _, hn⟩) | ⟨n, _, hn⟩
  · simp [eventListenerNode_severity sf.filePath n i hn]
  · simp [closureNode_severity sf.filePath n i hn]
  · simp [timerNode_severity sf.filePath n i hn]
  · simp [objectAccumulationNode_severity sf.filePath n i hn]

theorem calculateOverallSeverity_ne_high (l : List MemoryIssue)
    (h : (l.filter fun i => decide (i.severity = Severity.high)) = []) :
    calculateOverallSeverity l ≠ Severity.high := by
  unfold calculateOverallSeverity
  rw [h]
  simp only [List.length_nil, Nat.lt_irrefl, if_false]
  split <;> simp

/-- Claim C1: for every completed analysis run, `summary.totalIssues` equals
the number of performance issues plus the number of potential leak issues;
the dependency result — in particular the number of detected circular
dependencies — never enters the sum (the second conjunct: the summary's
total is unchanged under any dependency result whatsoever). -/
theorem run_totalIssues (fsExists : FsPath → Bool) (files : List SourceFile)
    (projectPath : FsPath) (r : AnalysisResult)
    (h : analyzeProject fsExists files projectPath = Except.ok r) :
    r.summary.totalIssues =
      r.performance.issues.length + r.memoryLeaks.potentialLeaks.length ∧
    ∀ d, (generateSummary r.performance r.memoryLeaks d).totalIssues = r.summary.totalIssues := by
  unfold analyzeProject at h
  split at h
  · exact absurd h (by simp)
  · split at h
    · exact absurd h (by simp)
    · injection h with h2
      subst h2
      exact ⟨rfl, fun d => rfl⟩

/-- Witness for `run_totalIssues`: the completed run over `exFs` with the
two example files. -/
theorem run_totalIssues_witness :
    (runDetectors [exFileA, exFileB]).summary.totalIssues =
      (runDetectors [exFileA, exFileB]).performance.issues.length +
        (runDetectors [exFileA, exFileB]).memoryLeaks.potentialLeaks.length :=
  (run_totalIssues exFs [exFileA, exFileB] ["home", "app"]
    (runDetectors [exFileA, exFileB]) rfl).1

/-- Claim C2 fails on the code (a code bug): with `a.ts` importing `./b` and
`b.ts` importing `./a`, the graph keys carry the `.ts` extension while the
resolved edge targets do not, so the depth-first search never re-enters a
key and reports no cycle at all — not the cycle `[a.ts, b.ts]` the claim
requires.  The last conjunct shows the same project with extension-bearing
specifiers does produce exactly that cycle, isolating the extension mismatch
as the cause. -/
theorem circularDependencies_ab_empty :
    buildDependencyGraph [exFileA, exFileB] =
      [("/proj/a.ts", ["/proj/b"]), ("/proj/b.ts", ["/proj/a"])] ∧
    (dependencyAnalyze [exFileA, exFileB]).circularDependencies = [] ∧
    (dependencyAnalyze [exFileATs, exFileBTs]).circularDependencies =
      [["/proj/a.ts", "/proj/b.ts"]] := by
  refine ⟨by decide, by decide, by decide⟩

/-- Claim C5: `overallHealth` is `poor` exactly when `criticalIssues` is
positive, where `criticalIssues` counts the high-severity performance and
leak issues; with zero critical issues it is `moderate` exactly when
`totalIssues` exceeds 10, and `good` otherwise. -/
theorem overallHealth_policy (p : PerformanceAnalysisResult) (m : MemoryAnalysisResult)
    (d : DependencyAnalysisResult) :
    (generateSummary p m d).criticalIssues =
      (p.issues.filter fun i => decide (i.severity = Severity.high)).length +
        (m.potentialLeaks.filter fun i => decide (i.severity = Severity.high)).length ∧
    ((generateSummary p m d).overallHealth = Health.poor ↔
      0 < (generateSummary p m d).criticalIssues) ∧
    ((generateSummary p m d).criticalIssues = 0 →
      ((generateSummary p m d).overallHealth = Health.moderate ↔
        10 < (generateSummary p m d).totalIssues)) ∧
    ((generateSummary p m d).criticalIssues = 0 → (generateSummary p m d).totalIssues ≤ 10 →
      (generateSummary p m d).overallHealth = Health.good) := by
  have hh : (generateSummary p m d).overallHealth =
      (if 0 < (generateSummary p m d).criticalIssues then Health.poor
       else if 10 < (generateSummary p m d).totalIssues then Health.moderate
       else Health.good) := rfl
  refine ⟨rfl, ?_, ?_, ?_⟩
  · rw [hh]
    split_ifs with h1 h2 <;> simp [h1]
  · intro h0
    rw [hh, h0]
    simp only [Nat.lt_irrefl, if_false]
    split_ifs with h2 <;> simp [h2]
  · intro h0 h10
    rw [hh, h0]
    simp [Nat.not_lt.mpr h10]

/-- Witness for `overallHealth_policy`: eleven low-severity issues and no
critical one yield `moderate`. -/
theorem overallHealth_policy_witness :
    (generateSummary exElevenIssues exNoLeaks exNoDeps).overallHealth = Health.moderate :=
  ((overallHealth_policy exElevenIssues exNoLeaks exNoDeps).2.2.1 (by decide)).mpr (by decide)

/-- Claim C7: `analyzeProject` fails with `projectNotFound` when the root
does not exist; otherwise with `configNotFound` when the upward walk finds
no `tsconfig.json`; and when a manifest is found it returns the detectors'
output with no error — the fatal checks precede every detector. -/
theorem analyzeProject_fatal (fsExists : FsPath → Bool) (files : List SourceFile)
    (projectPath : FsPath) :
    (fsExists projectPath = false →
      analyzeProject fsExists files projectPath = Except.error AnalysisError.projectNotFound) ∧
    (fsExists projectPath = true → findTsConfig fsExists projectPath = none →
      analyzeProject fsExists files projectPath = Except.error AnalysisError.configNotFound) ∧
    (∀ t, fsExists projectPath = true → findTsConfig fsExists projectPath = some t →
      analyzeProject fsExists files projectPath = Except.ok (runDetectors files)) := by
  refine ⟨?_, ?_, ?_⟩
  · intro h
    simp [analyzeProject, h]
  · intro h1 h2
    simp [analyzeProject, h1, h2]
  · intro t h1 h2
    simp [analyzeProject, h1, h2]

/-- Witness for `analyzeProject_fatal`: the three outcomes at concrete
filesystems. -/
theorem analyzeProject_fatal_witness :
    analyzeProject exFs [] ["home", "other"] = Except.error AnalysisError.projectNotFound ∧
    analyzeProject exFsNoConfig [] ["home", "app"] = Except.error AnalysisError.configNotFound ∧
    analyzeProject exFs [exFileA, exFileB] ["home", "app"] =
      Except.ok (runDetectors [exFileA, exFileB]) :=
  ⟨(analyzeProject_fatal exFs [] ["home", "other"]).1 (by decide),
   (analyzeProject_fatal exFsNoConfig [] ["home", "app"]).2.1 (by decide) (by decide),
   (analyzeProject_fatal exFs [exFileA, exFileB] ["home", "app"]).2.2
     ["home", "app", "tsconfig.json"] (by decide) (by decide)⟩

/-- Claim C10: on every finite dependency graph — cyclic ones included — the
cycle search terminates: the fuelled search never runs out, because each
recursive entry consumes an unvisited candidate and the visited set only
grows. -/
theorem detectCircularDependencies_total (g : DependencyGraph) :
    (detectCircularDependencies g).isSome = true := by
  unfold detectCircularDependencies
  have h := runVisits_total g (g.map fun e => e.1) ⟨[], [], []⟩ (keys_mem_candidates g)
  obtain ⟨st, heq⟩ := Option.isSome_iff_exists.mp h
  rw [heq]
  rfl

/-- Claim C3: an array literal with more than 1000 immediate elements makes
`analyzeMemoryUsage` emit exactly one `memory`/medium issue whose code
excerpt is the literal's text cut to 100 characters plus an ellipsis, and
one with at most 1000 elements emits nothing at that node. -/
theorem largeArrayLiteral_issue (fp : String) (d : NodeData) (cs : List SyntaxNode)
    (hk : d.kind = SyntaxKind.ArrayLiteralExpression) :
    (1000 < cs.length →
      memUsageNode fp (SyntaxNode.node d cs) =
        [{ type := PerfType.memory, severity := Severity.medium,
           location := fp ++ ":" ++ toString d.line,
           description := "Large array literal detected",
           suggestion := "Consider loading large arrays dynamically or paginating",
           code := some (String.mk (d.text.data.take 100) ++ "...") }]) ∧
    (cs.length ≤ 1000 → memUsageNode fp (SyntaxNode.node d cs) = []) := by
  constructor
  · intro h
    simp [memUsageNode, SyntaxNode.kind, SyntaxNode.getChildren, SyntaxNode.text,
      SyntaxNode.line, hk, h]
  · intro h
    simp [memUsageNode, SyntaxNode.kind, SyntaxNode.getChildren, SyntaxNode.text,
      SyntaxNode.line, hk, Nat.not_lt.mpr h]

/-- Witness for `largeArrayLiteral_issue`: a 1001-element literal. -/
theorem largeArrayLiteral_issue_witness :
    memUsageNode "/proj/data.ts" (SyntaxNode.node exArrayData exArrayElems) =
      [{ type := PerfType.memory, severity := Severity.medium,
         location := "/proj/data.ts:3",
         description := "Large array literal detected",
         suggestion := "Consider loading large arrays dynamically or paginating",
         code := some "[0, 1, 2, 3, 4, ...]..." }] :=
  (largeArrayLiteral_issue "/proj/data.ts" exArrayData exArrayElems rfl).1
    (by simp [exArrayElems])

/-- Claim C4 as stated is false on the code, at two concrete inputs: a
function whose only decision descendant is a for-of loop (a loop, so the
claim demands complexity 2) has code-computed complexity 1, because the
source's `switch` lists only `ForStatement` and `WhileStatement` among loop
kinds; and a function whose only binary descendant is an `==` comparison
containing `&&` inside a string literal (not a logical expression, so the
claim demands complexity 1) has code-computed complexity 2, because the
source greps the raw text for `&&`/`||`. -/
theorem cyclomaticComplexity_claim_cex :
    nodeComplexity exForOfFn = 1 ∧ claimComplexity exForOfFn = 2 ∧
    nodeComplexity exStrBinFn = 2 ∧ claimComplexity exStrBinFn = 1 := by
  refine ⟨by decide, by decide, by decide, by decide⟩

/-- Claim C4 (amended): the computed complexity is 1 plus the number of
descendants that are if statements, plain `for` statements, `while`
statements, case clauses, catch clauses, ternaries, or binary expressions
whose raw text contains `&&` or `||` (for-in/for-of/do-while loops never
count; a binary expression counts through the textual check even when its
top-level operator is not logical); a `complexity` issue is emitted exactly
when the complexity exceeds 10, its severity is `high` exactly when the
complexity exceeds 20, and a function with 16 counted decision points has
complexity 17 and yields one `medium` issue. -/
theorem cyclomaticComplexity_amended (fp : String) (n : SyntaxNode) :
    nodeComplexity n = 1 + n.descendants.countP decisionIncrement ∧
    (complexityIssuesFor fp n ≠ [] ↔ 10 < nodeComplexity n) ∧
    (∀ i ∈ complexityIssuesFor fp n, i.type = PerfType.complexity ∧
      (i.severity = Severity.high ↔ 20 < nodeComplexity n)) ∧
    (n.descendants.countP decisionIncrement = 16 →
      nodeComplexity n = 17 ∧
        ∃ i, complexityIssuesFor fp n = [i] ∧ i.severity = Severity.medium) := by
  have hc : nodeComplexity n = 1 + n.descendants.countP decisionIncrement := by
    simpa [nodeComplexity] using foldl_count_eq decisionIncrement n.descendants 1
  refine ⟨hc, ?_, ?_, ?_⟩
  · unfold complexityIssuesFor
    split <;> simp_all
  · intro i hi
    unfold complexityIssuesFor at hi
    split at hi
    · simp only [List.mem_singleton] at hi
      subst hi
      refine ⟨rfl, ?_⟩
      split <;> simp_all
    · simp at hi
  · intro h16
    have h17 : nodeComplexity n = 17 := by rw [hc, h16]
    refine ⟨h17, ?_⟩
    unfold complexityIssuesFor
    rw [h17]
    norm_num

/-- Witness for `cyclomaticComplexity_amended`: a method with 16 decision
points. -/
theorem cyclomaticComplexity_amended_witness :
    nodeComplexity ex16Fn = 17 ∧
      ∃ i, complexityIssuesFor "/proj/r.ts" ex16Fn = [i] ∧ i.severity = Severity.medium :=
  (cyclomaticComplexity_amended "/proj/r.ts" ex16Fn).2.2.2 (by decide)

/-- Claim C6: for any complexity and any line count of at least 1, the
maintainability index lies in `[0, 100]`. -/
theorem maintainabilityIndex_bounds (cyclomaticComplexity linesOfCode : ℕ)
    (h : 1 ≤ linesOfCode) :
    0 ≤ calculateMaintainabilityIndex linesOfCode cyclomaticComplexity ∧
    calculateMaintainabilityIndex linesOfCode cyclomaticComplexity ≤ 100 := by
  have hlog : (0:ℝ) ≤ Real.log linesOfCode := Real.log_nonneg (by exact_mod_cast h)
  have hcc : (0:ℝ) ≤ (cyclomaticComplexity : ℝ) := Nat.cast_nonneg _
  unfold calculateMaintainabilityIndex
  rw [round_eq]
  set x : ℝ :=
    (171 - Real.log linesOfCode * 5.2 - (cyclomaticComplexity : ℝ) * 0.23) * 100 / 171 with hxdef
  have hx100 : x ≤ 100 := by
    rw [hxdef, div_le_iff₀ (by norm_num : (0:ℝ) < 171)]
    nlinarith [hlog, hcc]
  have hmax0 : (0:ℝ) ≤ max 0 x := le_max_left 0 x
  have hmax100 : max 0 x ≤ 100 := max_le (by norm_num) hx100
  constructor
  · exact Int.floor_nonneg.mpr (by linarith)
  · have hlt : (⌊max 0 x + 1 / 2⌋ : ℤ) < 101 := Int.floor_lt.mpr (by push_cast; linarith)
    omega

/-- Witness for `maintainabilityIndex_bounds` at one line of code and zero
complexity. -/
theorem maintainabilityIndex_bounds_witness :
    0 ≤ calculateMaintainabilityIndex 1 0 ∧ calculateMaintainabilityIndex 1 0 ≤ 100 :=
  maintainabilityIndex_bounds 0 1 (by decide)

/-- Claim C8: every Leak Detector issue has severity low or medium — no
sweep emits `high` — so the leak result's overall severity is never `high`
and `criticalIssues` reduces to the count of high-severity performance
issues alone. -/
theorem leakDetector_never_high (files : List SourceFile) (p : PerformanceAnalysisResult)
    (d : DependencyAnalysisResult) :
    (∀ i ∈ (memoryLeakDetect files).potentialLeaks, i.severity ≠ Severity.high) ∧
    (memoryLeakDetect files).severity ≠ Severity.high ∧
    (generateSummary p (memoryLeakDetect files) d).criticalIssues =
      (p.issues.filter fun i => decide (i.severity = Severity.high)).length := by
  have hnil : ((memoryLeakDetect files).potentialLeaks.filter
      fun i => decide (i.severity = Severity.high)) = [] :=
    List.filter_eq_nil_iff.mpr (fun a ha => by simpa using leak_issue_not_high files a ha)
  refine ⟨leak_issue_not_high files, ?_, ?_⟩
  · exact calculateOverallSeverity_ne_high (memoryLeakDetect files).potentialLeaks hnil
  · have : (generateSummary p (memoryLeakDetect files) d).criticalIssues =
        (p.issues.filter fun i => decide (i.severity = Severity.high)).length +
          ((memoryLeakDetect files).potentialLeaks.filter
            fun i => decide (i.severity = Severity.high)).length := rfl
    rw [this, hnil]
    simp

/-- Witness for `leakDetector_never_high`: a file with one `setInterval`
call. -/
theorem leakDetector_never_high_witness :
    ({ type := "TimerLeak", severity := Severity.medium, location := "/proj/t.ts:4",
       description := "Potential timer leak detected",
       suggestion := "Ensure timer is cleared when component unmounts" } : MemoryIssue).severity ≠
        Severity.high ∧
    (memoryLeakDetect [exTimerFile]).severity ≠ Severity.high :=
  ⟨(leakDetector_never_high [exTimerFile] exElevenIssues exNoDeps).1
      { type := "TimerLeak", severity := Severity.medium, location := "/proj/t.ts:4",
        description := "Potential timer leak detected",
        suggestion := "Ensure timer is cleared when component unmounts" } (by decide),
   (leakDetector_never_high [exTimerFile] exElevenIssues exNoDeps).2.1⟩

theorem flatMap_filter_guard {α β : Type} (p : α → Bool) (f : α → List β) (l : List α) :
    (l.filter p).flatMap f = l.flatMap (fun a => if p a then f a else []) := by
  induction l with
  | nil => simp
  | cons a l ih => by_cases h : p a <;> simp [h, ih]

theorem foldl_add_filter_guard {α : Type} (p : α → Bool) (f : α → Nat) (l : List α) :
    ∀ c : Nat, (((l.filter p).map f).foldl (· + ·) c) =
      ((l.map fun a => if p a then f a else 0).foldl (· + ·) c) := by
  induction l with
  | nil => intro c; simp
  | cons a l ih => intro c; by_cases h : p a <;> simp [h, ih]

/-- Claim C9: for every unit — mixed ones included — only function
declarations and method declarations are measured: the measured-node test is
false on every arrow function and function expression, and both the issue
list and the summed complexity of `analyzeFunctionComplexity` are the
traversal of all descendants in which a node contributes its issues and its
complexity when it is a function or method declaration and `[]` and `0`
otherwise — so arrow functions and function expressions never produce a
`complexity` issue and add nothing to the project-wide metric, whatever
decision points they contain. -/
theorem arrowFunctions_not_measured (sf : SourceFile) :
    (∀ n : SyntaxNode,
      n.kind = SyntaxKind.ArrowFunction ∨ n.kind = SyntaxKind.FunctionExpression →
        isMeasuredFunction n = false) ∧
    (analyzeFunctionComplexity sf).1 =
      (fileDescendants sf).flatMap
        (fun n => if isMeasuredFunction n then complexityIssuesFor sf.filePath n else []) ∧
    (analyzeFunctionComplexity sf).2 =
      ((fileDescendants sf).map
        (fun n => if isMeasuredFunction n then nodeComplexity n else 0)).foldl (· + ·) 0 := by
  refine ⟨?_, ?_, ?_⟩
  · intro n h
    rcases h with h | h <;> simp [isMeasuredFunction, h]
  · exact flatMap_filter_guard isMeasuredFunction (complexityIssuesFor sf.filePath)
      (fileDescendants sf)
  · exact foldl_add_filter_guard isMeasuredFunction nodeComplexity (fileDescendants sf) 0

/-- Witness for `arrowFunctions_not_measured` at the mixed file: the arrow
node is not measured, the issue equation holds concretely, and the total
complexity is the method's 17 alone — the arrow function's 12 decision
points add nothing. -/
theorem arrowFunctions_not_measured_witness :
    isMeasuredFunction
      (SyntaxNode.node { kind := SyntaxKind.ArrowFunction, line := 1, text := "(x) => ..." }
        ((List.range 12).map fun i => exIfNode (i + 2))) = false ∧
    (analyzeFunctionComplexity exMixedFile).1 =
      (fileDescendants exMixedFile).flatMap
        (fun n => if isMeasuredFunction n then complexityIssuesFor "/proj/mixed.ts" n else []) ∧
    (analyzeFunctionComplexity exMixedFile).2 = 17 :=
  ⟨(arrowFunctions_not_measured exMixedFile).1 _ (Or.inl rfl),
   (arrowFunctions_not_measured exMixedFile).2.1,
   by decide⟩
